import Mathlib

/-!
Verification development for the Forecast-XML-Scraper core
(`functions/scraper/dwml_parse.py` and `functions/scraper/pipeline.py`).

The embedding is shallow: pandas timestamps are integers (nanoseconds
since the Unix epoch, UTC — the resolution pandas itself uses),
pandas `NaN`/`NaT`/`pd.NA` are `Option.none`, numeric cell values are
rationals, DataFrames are lists of typed rows or columnar structures,
and Python exceptions are `Except.error`.
-/

namespace Scraper

/-! ### Character-list string utilities

Kernel-friendly replacements for `str.strip`, `str.lower` and the
`in`-substring test used by the source.
-/

def lowerChars (cs : List Char) : List Char := cs.map Char.toLower

def trimChars (cs : List Char) : List Char :=
  ((cs.dropWhile Char.isWhitespace).reverse.dropWhile Char.isWhitespace).reverse

/-- Models Python `str.strip()`. -/
def pyStrip (s : String) : String := String.mk (trimChars s.toList)

def leadsWith : List Char → List Char → Bool
  | [], _ => true
  | _ :: _, [] => false
  | p :: ps, c :: cs => p == c && leadsWith ps cs

/-- Substring containment, models the Python `in` operator on strings. -/
def hasSub (needle : List Char) : List Char → Bool
  | [] => leadsWith needle []
  | c :: cs => leadsWith needle (c :: cs) || hasSub needle cs

/-! ### Calendar arithmetic

`daysFromCivil` is the standard proleptic-Gregorian day count (days
since 1970-01-01), used to normalise ISO datetimes to UTC instants.
-/

def daysFromCivil (y m d : Int) : Int :=
  let y2 : Int := if m ≤ 2 then y - 1 else y
  let era : Int := (if 0 ≤ y2 then y2 else y2 - 399) / 400
  let yoe : Int := y2 - era * 400
  let mp : Int := (m + 9) % 12
  let doy : Int := (153 * mp + 2) / 5 + d - 1
  let doe : Int := yoe * 365 + yoe / 4 - yoe / 100 + doy
  era * 146097 + doe - 719468

/-- Nanoseconds since the Unix epoch of a UTC civil datetime
(the value of a pandas UTC timestamp). -/
def utcInstant (y m d h mi s : Int) : Int :=
  ((daysFromCivil y m d) * 86400 + h * 3600 + mi * 60 + s) * 1000000000

/-! ### ISO-8601 timestamp parsing

Models `dateutil.parser.parse` / `pd.to_datetime` on the ISO-8601
subset these feeds emit (`YYYY-MM-DDTHH:MM:SS[.fff][Z|+HH:MM|-HH:MM]`);
any other string is a parse failure on both the Python and the Lean
side.  Fractional seconds are kept to pandas' nanosecond resolution.
-/

def digitVal (c : Char) : Nat := c.toNat - 48

def digitsVal (cs : List Char) : Nat :=
  cs.foldl (fun a c => a * 10 + digitVal c) 0

def readNDigits : Nat → List Char → Nat → Option (Nat × List Char)
  | 0, cs, acc => some (acc, cs)
  | k + 1, c :: cs, acc =>
      if c.isDigit then readNDigits k cs (acc * 10 + digitVal c) else none
  | _ + 1, [], _ => none

def expectChar (c : Char) : List Char → Option (List Char)
  | x :: xs => if x = c then some xs else none
  | [] => none

/-- Optional fractional-seconds part, as nanoseconds. -/
def readFracNs : List Char → Option (Int × List Char)
  | '.' :: rest =>
      let ds := rest.takeWhile Char.isDigit
      if ds.isEmpty then none
      else
        let d9 := ds.take 9
        some ((digitsVal d9 * 10 ^ (9 - d9.length) : Nat), rest.dropWhile Char.isDigit)
  | cs => some (0, cs)

/-- Trailing UTC-offset: inner `none` means an offset-naive datetime. -/
def readOffset : List Char → Option (Option Int)
  | [] => some none
  | ['Z'] => some (some 0)
  | ['z'] => some (some 0)
  | c :: rest =>
      if c = '+' ∨ c = '-' then
        match readNDigits 2 rest 0 with
        | none => none
        | some (h, rest2) =>
          let rest3 := match rest2 with
            | ':' :: r => r
            | r => r
          match readNDigits 2 rest3 0 with
          | none => none
          | some (mi, rest4) =>
            if rest4.isEmpty then
              let mins : Int := h * 60 + mi
              some (some (if c = '-' then -mins else mins))
            else none
      else none

/-- Parses an ISO-8601 datetime into
(naive nanoseconds since epoch, offset minutes). -/
def parseIsoCore (s : String) : Option (Int × Option Int) :=
  match readNDigits 4 s.toList 0 with
  | none => none
  | some (y, r1) =>
    match expectChar '-' r1 with
    | none => none
    | some r2 =>
      match readNDigits 2 r2 0 with
      | none => none
      | some (mo, r3) =>
        match expectChar '-' r3 with
        | none => none
        | some r4 =>
          match readNDigits 2 r4 0 with
          | none => none
          | some (d, r5) =>
            match r5 with
            | sep :: r6 =>
              if sep = 'T' ∨ sep = ' ' then
                match readNDigits 2 r6 0 with
                | none => none
                | some (h, r7) =>
                  match expectChar ':' r7 with
                  | none => none
                  | some r8 =>
                    match readNDigits 2 r8 0 with
                    | none => none
                    | some (mi, r9) =>
                      match expectChar ':' r9 with
                      | none => none
                      | some r10 =>
                        match readNDigits 2 r10 0 with
                        | none => none
                        | some (sec, r11) =>
                          match readFracNs r11 with
                          | none => none
                          | some (fr, r12) =>
                            match readOffset r12 with
                            | none => none
                            | some off =>
                              some (utcInstant y mo d h mi sec + fr, off)
              else none
            | [] => none

/-- Models `pd.Timestamp(dateutil.parser.parse(t)).tz_convert("UTC")` in
`_time_map`: an offset-naive string cannot be `tz_convert`-ed (pandas
raises), so it maps to `none` together with unparsable strings. -/
def parseTsAware (s : String) : Option Int :=
  match parseIsoCore s with
  | some (n, some off) => some (n - off * 60 * 1000000000)
  | _ => none

/-- Models `pd.to_datetime(s, utc=True)` on a single string: a naive
datetime is localised to UTC, an aware one is converted. -/
def parseTsUtc (s : String) : Option Int :=
  match parseIsoCore s with
  | some (n, some off) => some (n - off * 60 * 1000000000)
  | some (n, none) => some n
  | none => none

/-! ### Decimal parsing (models `float`/`pd.to_numeric` on a string) -/

def parseDecimalCore (cs : List Char) : Option ℚ :=
  let intPart := cs.takeWhile Char.isDigit
  let rest := cs.dropWhile Char.isDigit
  match rest with
  | [] => if intPart.isEmpty then none else some (mkRat (digitsVal intPart) 1)
  | '.' :: fr =>
      let frac := fr.takeWhile Char.isDigit
      if (fr.dropWhile Char.isDigit).isEmpty ∧ ¬(intPart.isEmpty ∧ frac.isEmpty) then
        some (mkRat (digitsVal intPart * 10 ^ frac.length + digitsVal frac) (10 ^ frac.length))
      else none
  | _ => none

/-- Models numeric-string coercion (`pd.to_numeric(s, errors="coerce")`)
on signed decimal literals; anything else coerces to missing.
(Scientific notation is not modelled; no claim involves it.) -/
def parseDecimal (s : String) : Option ℚ :=
  match trimChars s.toList with
  | '-' :: cs => (parseDecimalCore cs).map (fun q => -q)
  | '+' :: cs => parseDecimalCore cs
  | cs => parseDecimalCore cs

/-! ### The energy narrow schema and the incremental merge engine

Models `Pipeline.run_energy_range` lines 136-163 of `pipeline.py`: the
pure (existing master table, incoming batch) → (updated table,
accepted count) function.  Rows are typed, so the code's
re-normalisation of `begin_date` (`pd.to_datetime(..., errors="coerce")`
on an already-datetime column) and of `location_id` (`astype(str)` on an
already-string column) is the identity here; the composite key
`(str(begin_date), location_id)` is modelled as the pair
`(begin_date, location_id)`, faithful because `str` on normalised UTC
timestamps is injective and renders `NaT` distinctly from every instant.
-/

structure EnergyRow where
  scrape_time_utc : Int
  begin_date : Option Int
  location : String
  location_id : String
  load : Option ℚ
deriving DecidableEq, Repr

/-- The composite dedup key `(begin_date, location_id)`. -/
def rowKey (r : EnergyRow) : Option Int × String := (r.begin_date, r.location_id)

/-- Models `df.sort_values("begin_date")` ordering: `NaT` sorts last
(pandas `na_position="last"` default). -/
def bdLeB : Option Int → Option Int → Bool
  | _, none => true
  | none, some _ => false
  | some x, some y => x ≤ y

def rowLe (a b : EnergyRow) : Prop := bdLeB a.begin_date b.begin_date = true

instance : DecidableRel rowLe := fun a b =>
  inferInstanceAs (Decidable (bdLeB a.begin_date b.begin_date = true))

/-- The merge engine: build the existing key set, keep incoming rows
whose key is absent, and if any were kept, append and re-sort by
`begin_date`; the accepted count is `len(new_rows)`
(`rows_this_run`, 0 in the `no_new_rows` branch). -/
def mergeMaster (master incoming : List EnergyRow) : List EnergyRow × Nat :=
  let masterKeys := master.map rowKey
  let newRows := incoming.filter (fun r => decide (rowKey r ∉ masterKeys))
  if newRows.isEmpty then (master, 0)
  else (List.insertionSort rowLe (master ++ newRows), newRows.length)

/-- Shorthand for the accepted-row sublist of a merge. -/
def acceptedRows (master incoming : List EnergyRow) : List EnergyRow :=
  incoming.filter (fun r => decide (rowKey r ∉ master.map rowKey))

/-- Concrete row used in counterexamples. -/
def cxRow : EnergyRow :=
  { scrape_time_utc := 0, begin_date := some 0, location := "",
    location_id := "4004", load := none }

/-- Concrete row with a later `begin_date` and another location. -/
def cxRowB : EnergyRow :=
  { scrape_time_utc := 0, begin_date := some 3600000000000, location := "x",
    location_id := "4005", load := some (mkRat 5 2) }

/-- Concrete row sharing `begin_date` with `cxRow` at another location. -/
def cxRowOther : EnergyRow :=
  { scrape_time_utc := 0, begin_date := some 0, location := "y",
    location_id := "4005", load := none }

/-! ### JSON values and the heterogeneous record extractor

Models `_find_record_list` and `flatten_energy` of `dwml_parse.py`.
A decoded Python/JSON value is a `Json`; Python truthiness drives the
`or`-chained field lookups exactly as in the source.
-/

inductive Json where
  | null
  | bool (b : Bool)
  | num (q : ℚ)
  | str (s : String)
  | arr (items : List Json)
  | obj (fields : List (String × Json))

/-- Python truthiness of a JSON value. -/
def truthy : Json → Bool
  | .null => false
  | .bool b => b
  | .num q => decide (q ≠ 0)
  | .str s => decide (s ≠ "")
  | .arr l => !l.isEmpty
  | .obj o => !o.isEmpty

/-- Python `a or b`. -/
def pyOr (a b : Json) : Json := if truthy a then a else b

/-- Dictionary lookup (`o[k]` on a Python dict; dict keys are unique,
so first match is the match). -/
def jLookup (o : List (String × Json)) (k : String) : Option Json :=
  (o.find? (fun p => p.1 == k)).map Prod.snd

/-- Python `rec.get(k)`: `None` when the key is absent. -/
def jGetD (o : List (String × Json)) (k : String) : Json :=
  (jLookup o k).getD Json.null

/-- Python `str()` rendering of a scalar.  Only the string case is ever
observable through the claims (every identifier in them is a JSON
string); the remaining cases exist to make the function total. -/
def pyStr : Json → String
  | .str s => s
  | .null => "None"
  | .bool b => if b then "True" else "False"
  | .num q => if q.den = 1 then toString q.num else toString q.num ++ "/" ++ toString q.den
  | .arr _ => "[list]"
  | .obj _ => "[dict]"

/-- Models `pd.to_numeric(x, errors="coerce")` on one scalar: numbers
pass through, numeric strings parse, booleans become 0/1, `None` and
anything non-scalar coerce to missing. -/
def toNumericCoerce : Json → Option ℚ
  | .num q => some q
  | .str s => parseDecimal s
  | .bool b => some (if b then 1 else 0)
  | _ => none

/-- Models `pd.to_datetime(x, utc=True)` on one truthy scalar — note:
no `errors="coerce"` in the source here, so an unparsable string
raises.  A truthy number is epoch nanoseconds (floored). -/
def toDatetimeUtcJ : Json → Except String Int
  | .str s =>
      match parseTsUtc s with
      | some t => .ok t
      | none => .error "ValueError: unknown datetime string format"
  | .num q => .ok (q.num / (q.den : Int))
  | _ => .error "TypeError: value is not datetime convertible"

/-- The `BeginDate`/`Begin`/`beginDate` priority chain (line 222). -/
def beginField (o : List (String × Json)) : Json :=
  pyOr (jGetD o "BeginDate") (pyOr (jGetD o "Begin") (jGetD o "beginDate"))

/-- The `Load`/`Value`/`load` priority chain (line 233). -/
def loadField (o : List (String × Json)) : Json :=
  pyOr (jGetD o "Load") (pyOr (jGetD o "Value") (jGetD o "load"))

/-- The `Location` handling (lines 224-231): a dict yields
(`LocId`/`Id` else caller id, `Name`/`Location` else empty), anything
else is a bare display name with the caller-supplied identifier. -/
def locFields (locId : String) (loc : Json) : String × String :=
  match loc with
  | .obj f =>
      (pyStr (pyOr (jGetD f "LocId") (pyOr (jGetD f "Id") (Json.str locId))),
       pyStr (pyOr (jGetD f "Name") (pyOr (jGetD f "Location") (Json.str ""))))
  | _ => (locId, pyStr (pyOr loc (Json.str "")))

/-- The begin-date cell: `pd.to_datetime(begin, utc=True) if begin else
pd.NaT` (line 236). -/
def beginExcept (beginJ : Json) : Except String (Option Int) :=
  if truthy beginJ then (toDatetimeUtcJ beginJ).map some else .ok none

/-- Normalises one record of the located list into a narrow row
(lines 220-240).  A non-dict record raises (`rec.get` on it). -/
def rowOfRecord (stamp : Int) (locId : String) (rec : Json) : Except String EnergyRow :=
  match rec with
  | .obj o =>
      match beginExcept (beginField o) with
      | .error e => .error e
      | .ok bd =>
          .ok { scrape_time_utc := stamp, begin_date := bd,
                location := (locFields locId (jGetD o "Location")).2,
                location_id := (locFields locId (jGetD o "Location")).1,
                load := toNumericCoerce (loadField o) }
  | _ => .error "AttributeError: record has no attribute get"

def rowsOf (stamp : Int) (locId : String) : List Json → Except String (List EnergyRow)
  | [] => .ok []
  | r :: rs =>
      match rowOfRecord stamp locId r with
      | .error e => .error e
      | .ok row =>
          match rowsOf stamp locId rs with
          | .error e => .error e
          | .ok rest => .ok (row :: rest)

/-- First object field whose value is a non-empty list whose first
item is a dict (the fallback scan of `_find_record_list`). -/
def firstDictList : List (String × Json) → List Json
  | [] => []
  | (_, Json.arr (Json.obj f :: xs)) :: _ => Json.obj f :: xs
  | _ :: rest => firstDictList rest

/-- Models `_find_record_list` (lines 140-156): a top-level list wins,
then a `HourlyRtDemand` field holding a list, then the first
list-of-dicts field, else the empty list. -/
def findRecordList : Json → List Json
  | .arr l => l
  | .obj o =>
      match jLookup o "HourlyRtDemand" with
      | some (Json.arr l) => l
      | _ => firstDictList o
  | _ => []

/-- Models `flatten_energy` on an already-decoded JSON payload
(lines 218-247): locate the record list, normalise every record, and
sort the resulting narrow table ascending by `begin_date`. -/
def flattenEnergyJson (stamp : Int) (locId : String) (j : Json) :
    Except String (List EnergyRow) :=
  match rowsOf stamp locId (findRecordList j) with
  | .error e => .error e
  | .ok [] => .ok []
  | .ok rows => .ok (List.insertionSort rowLe rows)

/-! ### The XML fallback and the raw-text entry point of `flatten_energy` -/

/-- A `Location` element of the XML fallback: its `LocId`/`LocID`
attributes and its inner text. -/
structure XmlLocation where
  locIdAttr : Option String
  locIDAttr : Option String
  text : Option String

/-- One `HourlyRtDemand` element: descendant `BeginDate` texts,
`Location` elements and `Load` texts, in document order. -/
structure XmlDemandNode where
  beginTexts : List String
  locations : List XmlLocation
  loadTexts : List String

/-- Python `a or b` on an optional string against a string default. -/
def pyOrStr (a : Option String) (b : String) : String :=
  match a with
  | some s => if s ≠ "" then s else b
  | none => b

/-- One XML row (lines 185-204).  An unparsable `BeginDate` raises
here too, but the whole XML branch runs inside `except Exception`. -/
def xmlRow (stamp : Int) (locId : String) (node : XmlDemandNode) :
    Except String EnergyRow :=
  let locPair : String × String :=
    match node.locations.head? with
    | some le => (pyOrStr le.locIdAttr (pyOrStr le.locIDAttr locId),
                  pyStrip (le.text.getD ""))
    | none => (locId, "")
  match (match node.beginTexts.head? with
         | some s =>
             if s ≠ "" then
               match parseTsUtc s with
               | some t => Except.ok (some t)
               | none => Except.error "ValueError: unknown datetime string format"
             else Except.ok none
         | none => Except.ok none) with
  | .error e => .error e
  | .ok bd =>
      .ok { scrape_time_utc := stamp, begin_date := bd, location := locPair.2,
            location_id := locPair.1,
            load := node.loadTexts.head?.bind parseDecimal }

def xmlRowsOf (stamp : Int) (locId : String) :
    List XmlDemandNode → Except String (List EnergyRow)
  | [] => .ok []
  | n :: ns =>
      match xmlRow stamp locId n with
      | .error e => .error e
      | .ok row =>
          match xmlRowsOf stamp locId ns with
          | .error e => .error e
          | .ok rest => .ok (row :: rest)

/-- Models `flatten_energy` on raw text (lines 171-214), parametrised
by the two library decoders: `jsonDec` models `json.loads` (`none` =
`JSONDecodeError`), `xmlDec` models `etree.fromstring` plus the
`HourlyRtDemand` xpath (`none` = parse failure).  Empty or
whitespace-only text short-circuits to the empty table; a JSON decode
failure falls back to XML, whose branch is wrapped in
`except Exception` and so degrades to the empty table instead of
raising; a successful JSON decode continues outside any handler. -/
def flattenEnergyText (jsonDec : String → Option Json)
    (xmlDec : String → Option (List XmlDemandNode)) (s : String) (stamp : Int)
    (locId : String) : Except String (List EnergyRow) :=
  if (trimChars s.toList).isEmpty then .ok []
  else
    match jsonDec s with
    | some j => flattenEnergyJson stamp locId j
    | none =>
      match xmlDec s with
      | none => .ok []
      | some nodes =>
        match xmlRowsOf stamp locId nodes with
        | .error _ => .ok []
        | .ok [] => .ok []
        | .ok rows => .ok (List.insertionSort rowLe rows)

/-- The claim-C4 scenario record. -/
def c4record : Json :=
  Json.obj [("BeginDate", Json.str "2025-08-25T03:00:00.000-04:00"),
            ("Location", Json.obj [("LocId", Json.str "4004"),
                                   ("Name", Json.str ".Z.CONNECTICUT")]),
            ("Load", Json.num (mkRat 2552328 1000))]

/-- The claim-C4 scenario payload. -/
def c4payload : Json := Json.obj [("HourlyRtDemand", Json.arr [c4record])]

/-- A decoded JSON payload whose record has an unparsable begin date. -/
def c5badPayload : Json := Json.arr [Json.obj [("BeginDate", Json.str "garbage")]]

/-- The row the extractor produces for a record whose only field is a
falsy load or a falsy begin date. -/
def falsyRow : EnergyRow :=
  { scrape_time_utc := 0, begin_date := none, location := "",
    location_id := "L", load := none }

/-! ### The DWML forecast document model

Models `_time_map` and `flatten_dwml` of `dwml_parse.py`.  A parsed
document tree is represented by the items those functions actually
read: time-layout elements (their `layout-key` and `start-valid-time`
child texts), the child nodes of each `parameters` element (tag,
`type` and `time-layout` attributes, `value` child texts), and the
weather nodes (`.//parameters/weather`, of which the code uses the
first).
-/

structure RawTimeLayout where
  keys : List String
  times : List String

structure DwmlNode where
  tag : String
  typeAttr : Option String
  timeLayout : Option String
  values : List (Option String)

structure WeatherConditions where
  weatherType : List String
  intensity : List String
  coverage : List String
  additive : List String

structure WeatherNode where
  timeLayout : Option String
  conditions : List WeatherConditions

structure Dwml where
  timeLayouts : List RawTimeLayout
  parameters : List (List DwmlNode)
  weather : List WeatherNode

/-- Parses every `start-valid-time` text of one layout; any failure
(unparsable, or offset-naive and hence not `tz_convert`-ible) raises. -/
def parseTimes : List String → Option (List Int)
  | [] => some []
  | t :: ts =>
      match parseTsAware t with
      | none => none
      | some q => (parseTimes ts).map (fun rest => q :: rest)

/-- Models `_time_map` (lines 18-25): for each `time-layout`, take the
first `layout-key` text — `[0]` on the xpath result, an `IndexError`
when the layout has no key — and the parsed timestamps.  Later layouts
with the same key overwrite earlier ones (dict assignment), which
`tmapLookup` reproduces by finding the last entry. -/
def timeMapAux : List RawTimeLayout → Except String (List (String × List Int))
  | [] => .ok []
  | tl :: rest =>
      match tl.keys.head? with
      | none => .error "IndexError: list index out of range"
      | some k =>
          match parseTimes tl.times with
          | none => .error "ParserError: could not parse start-valid-time"
          | some ts =>
              match timeMapAux rest with
              | .error e => .error e
              | .ok m => .ok ((k, ts) :: m)

/-- Lookup with Python-dict semantics (the last binding wins). -/
def tmapLookup (m : List (String × List Int)) (k : String) : Option (List Int) :=
  (m.reverse.find? (fun p => p.1 == k)).map Prod.snd

/-- The value coercion of lines 56-58: `""`, `"NA"` and absent value
texts become missing (`replace` to `pd.NA`), then numeric coercion
with silent failure (`pd.to_numeric(errors="coerce")`). -/
def coerceVal : Option String → Option ℚ
  | none => none
  | some s => if s = "" ∨ s = "NA" then none else parseDecimal s

/-- Series naming (line 55): `tag_type` when the `type` attribute is
present and truthy, else the bare tag. -/
def seriesName (node : DwmlNode) : String :=
  match node.typeAttr with
  | some t => if t ≠ "" then node.tag ++ "_" ++ t else node.tag
  | none => node.tag

/-- Per-node series extraction (lines 39-59): skip the weather and
icon tags, nodes without `value` children, nodes whose `time-layout`
attribute is falsy or unmatched, and zero-length alignments; otherwise
align `min(len(vals), len(times))` coerced values with timestamps. -/
def extractNode (tmap : List (String × List Int)) (node : DwmlNode) :
    Option (String × List (Int × Option ℚ)) :=
  if node.tag = "weather" ∨ node.tag = "conditions-icon" then none
  else if node.values.isEmpty then none
  else
    match node.timeLayout with
    | none => none
    | some k =>
        if k = "" then none
        else
          match tmapLookup tmap k with
          | none => none
          | some times =>
              if min node.values.length times.length = 0 then none
              else some (seriesName node,
                (times.take (min node.values.length times.length)).zip
                  ((node.values.take (min node.values.length times.length)).map coerceVal))

/-- All numeric series of all `parameters` elements, in document
order. -/
def extractedSeries (doc : Dwml) (tmap : List (String × List Int)) :
    List (String × List (Int × Option ℚ)) :=
  doc.parameters.foldl (fun acc group => acc ++ group.filterMap (extractNode tmap)) []

/-- Python `" ".join`. -/
def joinWords : List String → String
  | [] => ""
  | [s] => s
  | s :: rest => s ++ " " ++ joinWords rest

/-- The rain/thunder/fog keyword scan of one `weather-conditions`
record (lines 72-83): all four attribute families joined, lowercased,
and searched for each keyword family. -/
def condFlags (wc : WeatherConditions) : Bool × Bool × Bool :=
  let txt := lowerChars (joinWords [joinWords wc.weatherType, joinWords wc.intensity,
    joinWords wc.coverage, joinWords wc.additive]).toList
  (["rain", "shower", "drizzle"].any (fun k => hasSub k.toList txt),
   ["thunder", "tstm", "tstorm"].any (fun k => hasSub k.toList txt),
   ["fog", "mist"].any (fun k => hasSub k.toList txt))

/-- The weather node's layout timestamps, empty when the attribute is
absent or unmatched (`tmap.get(tl, [])`). -/
def weatherTimes (tmap : List (String × List Int)) (node : WeatherNode) : List Int :=
  match node.timeLayout with
  | some k => (tmapLookup tmap k).getD []
  | none => []

/-- The flag index: the layout timestamps truncated to
`min(len(times), len(conds))`. -/
def flagIdx (tmap : List (String × List Int)) (node : WeatherNode) : List Int :=
  (weatherTimes tmap node).take
    (min (weatherTimes tmap node).length node.conditions.length)

/-- The per-record flag triples aligned with `flagIdx`. -/
def flagVals (tmap : List (String × List Int)) (node : WeatherNode) :
    List (Bool × Bool × Bool) :=
  (node.conditions.take
    (min (weatherTimes tmap node).length node.conditions.length)).map condFlags

/-- The three boolean flag series (lines 61-87): built from the first
weather node, its layout looked up with an empty-list default, and the
conditions truncated to `min(len(times), len(conds))`. -/
def extractedFlags (doc : Dwml) (tmap : List (String × List Int)) :
    List (Int × Bool) × List (Int × Bool) × List (Int × Bool) :=
  match doc.weather.head? with
  | none => ([], [], [])
  | some node =>
      if min (weatherTimes tmap node).length node.conditions.length = 0 then
        ([], [], [])
      else
        ((flagIdx tmap node).zip ((flagVals tmap node).map (fun t => t.1)),
         (flagIdx tmap node).zip ((flagVals tmap node).map (fun t => t.2.1)),
         (flagIdx tmap node).zip ((flagVals tmap node).map (fun t => t.2.2)))

def seriesIndex (s : List (Int × α)) : List Int := s.map Prod.fst

/-- The `all_idx` list of lines 89-92: every series' index, plus each
flag index when nonempty. -/
def allIndexLists (doc : Dwml) (tmap : List (String × List Int)) : List (List Int) :=
  (extractedSeries doc tmap).map (fun p => seriesIndex p.2) ++
    (match extractedFlags doc tmap with
     | (r, th, f) =>
        ([seriesIndex r, seriesIndex th, seriesIndex f].filter (fun l => !l.isEmpty)))

def qInsert (t : Int) (acc : List Int) : List Int :=
  if t ∈ acc then acc else acc ++ [t]

/-- `pd.Index.union` as the set union it computes on these inputs. -/
def idxUnion (acc l : List Int) : List Int :=
  l.foldl (fun a t => qInsert t a) acc

/-- The master timestamp axis (lines 95-96): the fold of unions,
sorted ascending. -/
def masterAxis (doc : Dwml) (tmap : List (String × List Int)) : List Int :=
  List.insertionSort (· ≤ ·) ((allIndexLists doc tmap).foldl idxUnion [])

/-- Models `s.reindex(master)`: a cell per master timestamp, missing
where the series has no entry; pandas raises when the calling series'
own index has duplicate labels, reproduced here. -/
def reindexSafe (s : List (Int × α)) (master : List Int) :
    Except String (List (Option α)) :=
  if (s.map Prod.fst).Nodup then
    .ok (master.map (fun t => (s.find? (fun p => decide (p.1 = t))).map Prod.snd))
  else .error "ValueError: cannot reindex on an axis with duplicate labels"

def reindexAll : List (String × List (Int × α)) → List Int →
    Except String (List (String × List (Option α)))
  | [], _ => .ok []
  | (n, s) :: rest, master =>
      match reindexSafe s master with
      | .error e => .error e
      | .ok col =>
          match reindexAll rest master with
          | .error e => .error e
          | .ok cols => .ok ((n, col) :: cols)

/-- One `df[name] = ...` assignment: overwrite the column when the
name exists, else append it. -/
def assignCol (acc : List (String × List (Option ℚ))) (nv : String × List (Option ℚ)) :
    List (String × List (Option ℚ)) :=
  if acc.any (fun p => p.1 == nv.1) then
    acc.map (fun p => if p.1 == nv.1 then (p.1, nv.2) else p)
  else acc ++ [nv]

def assignAll (cols : List (String × List (Option ℚ))) : List (String × List (Option ℚ)) :=
  cols.foldl assignCol []

/-- The friendly-name remapping of lines 113-127. -/
def renameTable : List (String × String) :=
  [("temperature_hourly", "temp_F"),
   ("temperature_apparent", "heat_index_F"),
   ("dewpoint_hourly", "dewpoint_F"),
   ("wind-speed_sustained", "wind_speed_mph"),
   ("wind-speed_gust", "wind_gust_mph"),
   ("direction", "wind_dir_deg"),
   ("probability-of-precipitation", "pop_pct"),
   ("cloud-amount", "sky_cover_pct"),
   ("humidity_relative", "rh_pct"),
   ("pressure_sea-level", "pressure_hPa"),
   ("visibility", "visibility_mi"),
   ("cig", "ceiling_ft")]

def renameName (n : String) : String :=
  ((renameTable.find? (fun p => p.1 == n)).map Prod.snd).getD n

/-- Collapses the two missing layers of a reindexed numeric column:
a timestamp absent from the series' index and a value stored as
missing are both `NaN` in the pandas frame. -/
def joinCols (cols : List (String × List (Option (Option ℚ)))) :
    List (String × List (Option ℚ)) :=
  cols.map (fun p => (p.1, p.2.map Option.join))

/-- The wide forecast frame: the fixed metadata columns as scalars,
the master timestamp axis (= the `forecast_time_utc` column), the
numeric feature columns and the boolean weather-flag columns, all
aligned with the axis. -/
structure WideFrame where
  scrape_time_utc : Int
  location_lat : ℚ
  location_lon : ℚ
  index : List Int
  cols : List (String × List (Option ℚ))
  flagCols : List (String × List (Option Bool))

/-- The named nonempty flag series, in assignment order
(lines 102-104). -/
def flagList (fls : List (Int × Bool) × List (Int × Bool) × List (Int × Bool)) :
    List (String × List (Int × Bool)) :=
  ([("weather_rain", fls.1), ("weather_thunder", fls.2.1),
    ("weather_fog", fls.2.2)]).filter (fun p => !p.2.isEmpty)

/-- Models `flatten_dwml` (lines 27-129): build the time map (raising
on malformed layouts), extract series and flags, fail when no index at
all was collected, reindex everything onto the sorted union axis,
apply column assignment and renaming.  The trailing
`sort_values("forecast_time_utc")` is a no-op because the axis is
already sorted and duplicate-free, and is omitted. -/
def flatten_dwml (doc : Dwml) (stamp : Int) (lat lon : ℚ) :
    Except String WideFrame :=
  match timeMapAux doc.timeLayouts with
  | .error e => .error e
  | .ok tmap =>
      if (allIndexLists doc tmap).isEmpty then
        .error "RuntimeError: No timestamps found in DWML"
      else
        match reindexAll (extractedSeries doc tmap) (masterAxis doc tmap) with
        | .error e => .error e
        | .ok cols =>
            match reindexAll (flagList (extractedFlags doc tmap)) (masterAxis doc tmap) with
            | .error e => .error e
            | .ok fcols =>
                .ok { scrape_time_utc := stamp, location_lat := lat,
                      location_lon := lon,
                      index := masterAxis doc tmap,
                      cols := (assignAll (joinCols cols)).map
                        (fun p => (renameName p.1, p.2)),
                      flagCols := fcols }

/-- Formalises claim C9's notion of the timestamp information
discoverable in a document independently of layout parse failures:
the same series/flag indices computed over the layouts that do parse
(a layout without a key or with unparsable times is skipped instead of
fatal, which is what the claim's wording presumes). -/
def tolerantTimeMap (ls : List RawTimeLayout) : List (String × List Int) :=
  ls.filterMap (fun tl =>
    match tl.keys.head?, parseTimes tl.times with
    | some k, some ts => some (k, ts)
    | _, _ => none)

def claimIndexLists (doc : Dwml) : List (List Int) :=
  allIndexLists doc (tolerantTimeMap doc.timeLayouts)

/-- A well-formed layout with two hourly timestamps. -/
def goodLayout : RawTimeLayout :=
  { keys := ["k1"], times := ["1970-01-01T00:00:00Z", "1970-01-01T01:00:00Z"] }

/-- A degenerate layout without a `layout-key` child. -/
def badLayout : RawTimeLayout := { keys := [], times := [] }

/-- A temperature node aligned with `goodLayout`. -/
def tempNode : DwmlNode :=
  { tag := "temperature", typeAttr := some "hourly", timeLayout := some "k1",
    values := [some "1", some "2"] }

/-- A well-formed one-series document. -/
def c3doc : Dwml := { timeLayouts := [goodLayout], parameters := [[tempNode]], weather := [] }

/-- The time map of `c3doc`. -/
def c3tmap : List (String × List Int) := [("k1", [0, 3600000000000])]

/-- The wide frame `c3doc` flattens to. -/
def c3frame : WideFrame :=
  { scrape_time_utc := 0, location_lat := 0, location_lon := 0,
    index := [0, 3600000000000],
    cols := [("temp_F", [some (mkRat 1 1), some (mkRat 2 1)])],
    flagCols := [] }

/-- A document with one good series and one key-less layout. -/
def c9doc : Dwml :=
  { timeLayouts := [goodLayout, badLayout], parameters := [[tempNode]], weather := [] }

/-- A five-value node against a three-timestamp layout. -/
def c7node : DwmlNode :=
  { tag := "temperature", typeAttr := none, timeLayout := some "k5",
    values := [some "1", some "2", some "3", some "4", some "5"] }

def c7tmap : List (String × List Int) :=
  [("k5", [0, 1000000000, 2000000000])]

/-- Length of the aligned pair list a node extraction produced
(0 when the node was skipped). -/
def alignedLen (r : Option (String × List (Int × Option ℚ))) : Nat :=
  match r with
  | none => 0
  | some (_, ps) => ps.length

/-! ### Lemmas and claim theorems for the merge engine -/

lemma mergeMaster_eq_ite (master incoming : List EnergyRow) :
    mergeMaster master incoming =
      if (acceptedRows master incoming).isEmpty then (master, 0)
      else (List.insertionSort rowLe (master ++ acceptedRows master incoming),
            (acceptedRows master incoming).length) := rfl

lemma acceptedRows_eq_nil_iff (master incoming : List EnergyRow) :
    acceptedRows master incoming = [] ↔
      ∀ r ∈ incoming, rowKey r ∈ master.map rowKey := by
  simp [acceptedRows, List.filter_eq_nil_iff]

lemma mergeMaster_of_no_new (master incoming : List EnergyRow)
    (h : ∀ r ∈ incoming, rowKey r ∈ master.map rowKey) :
    mergeMaster master incoming = (master, 0) := by
  rw [mergeMaster_eq_ite, if_pos]
  rw [List.isEmpty_iff, acceptedRows_eq_nil_iff]
  exact h

lemma key_mem_mergeMaster (master incoming : List EnergyRow) :
    ∀ r ∈ incoming, rowKey r ∈ ((mergeMaster master incoming).1).map rowKey := by
  intro r hr
  rw [mergeMaster_eq_ite]
  by_cases hemp : (acceptedRows master incoming).isEmpty
  · rw [if_pos hemp]
    rw [List.isEmpty_iff, acceptedRows_eq_nil_iff] at hemp
    exact hemp r hr
  · rw [if_neg hemp]
    have hperm : List.Perm
        ((List.insertionSort rowLe (master ++ acceptedRows master incoming)).map rowKey)
        ((master ++ acceptedRows master incoming).map rowKey) :=
      (List.perm_insertionSort rowLe _).map rowKey
    rw [hperm.mem_iff, List.map_append, List.mem_append]
    by_cases hk : rowKey r ∈ master.map rowKey
    · exact Or.inl hk
    · have hmem : r ∈ acceptedRows master incoming :=
        List.mem_filter.mpr ⟨hr, decide_eq_true hk⟩
      exact Or.inr (List.mem_map_of_mem rowKey hmem)


/-- C1: the incremental merge is idempotent — for every master table and
every batch, re-merging the same batch into the merged table accepts 0
rows and leaves the table unchanged, and a batch that is empty or whose
keys all already exist leaves the table equal to the input with
accepted count 0. -/
theorem merge_idempotent (master batch : List EnergyRow) :
    (mergeMaster (mergeMaster master batch).1 batch).2 = 0 ∧
    (mergeMaster (mergeMaster master batch).1 batch).1 = (mergeMaster master batch).1 ∧
    ((batch = [] ∨ ∀ r ∈ batch, rowKey r ∈ master.map rowKey) →
      mergeMaster master batch = (master, 0)) := by
  have hsecond : mergeMaster (mergeMaster master batch).1 batch =
      ((mergeMaster master batch).1, 0) :=
    mergeMaster_of_no_new _ _ (key_mem_mergeMaster master batch)
  refine ⟨by rw [hsecond], by rw [hsecond], ?_⟩
  rintro (rfl | hall)
  · exact mergeMaster_of_no_new master [] (by intro r hr; cases hr)
  · exact mergeMaster_of_no_new master batch hall

/-- C1 witness: the idempotence theorem instantiated at a concrete
one-row table and a concrete overlapping batch. -/
theorem merge_idempotent_witness :
    (mergeMaster (mergeMaster [cxRow] [cxRow, cxRowB]).1 [cxRow, cxRowB]).2 = 0 ∧
    mergeMaster [cxRow] [cxRow] = ([cxRow], 0) := by
  refine ⟨(merge_idempotent [cxRow] [cxRow, cxRowB]).1, ?_⟩
  exact (merge_idempotent [cxRow] [cxRow]).2.2 (Or.inr (by decide))

/-- C2 counterexample: merging an empty master table with a batch that
contains the same record twice yields a table in which two rows share
the composite key, so composite-key uniqueness after a merge fails as
universally stated. -/
theorem merge_duplicate_batch_counterexample :
    ¬ (((mergeMaster [] [cxRow, cxRow]).1).map rowKey).Nodup := by decide

/-- C2 (amended): after every completed merge, composite-key uniqueness
holds provided the existing table has pairwise-distinct keys and the
incoming batch has pairwise-distinct keys; rows from the batch never
duplicate a key already in the table, but the merge does not
deduplicate a batch against itself. -/
theorem merge_preserves_key_uniqueness (master batch : List EnergyRow)
    (hm : (master.map rowKey).Nodup) (hb : (batch.map rowKey).Nodup) :
    (((mergeMaster master batch).1).map rowKey).Nodup := by
  rw [mergeMaster_eq_ite]
  by_cases hemp : (acceptedRows master batch).isEmpty
  · rw [if_pos hemp]; exact hm
  · rw [if_neg hemp]
    have hperm : List.Perm
        ((List.insertionSort rowLe (master ++ acceptedRows master batch)).map rowKey)
        ((master ++ acceptedRows master batch).map rowKey) :=
      (List.perm_insertionSort rowLe _).map rowKey
    rw [hperm.nodup_iff, List.map_append]
    have hsub : ((acceptedRows master batch).map rowKey).Sublist (batch.map rowKey) :=
      (List.filter_sublist batch).map rowKey
    refine List.Nodup.append hm (hb.sublist hsub) ?_
    intro k hkm hka
    obtain ⟨r, hrmem, hrk⟩ := List.mem_map.mp hka
    have hnot : rowKey r ∉ master.map rowKey :=
      of_decide_eq_true (List.mem_filter.mp hrmem).2
    exact hnot (hrk ▸ hkm)

/-- C2 witness: the amended uniqueness theorem at a concrete master
table and batch with distinct keys. -/
theorem merge_preserves_key_uniqueness_witness :
    (((mergeMaster [cxRow] [cxRowB]).1).map rowKey).Nodup :=
  merge_preserves_key_uniqueness [cxRow] [cxRowB] (by decide) (by decide)

/-- C8: two records with equal `begin_date` but different (string form)
`location_id` have distinct composite keys, and the presence of one in
the master table never changes whether the other is accepted. -/
theorem merge_key_composition (M : List EnergyRow) (r1 r2 : EnergyRow)
    (hbd : r1.begin_date = r2.begin_date) (hloc : r1.location_id ≠ r2.location_id) :
    rowKey r1 ≠ rowKey r2 ∧
    (mergeMaster (M ++ [r1]) [r2]).2 = (mergeMaster M [r2]).2 := by
  have hkey : rowKey r1 ≠ rowKey r2 := by
    intro h
    exact hloc (congrArg Prod.snd h)
  refine ⟨hkey, ?_⟩
  have hmem : (rowKey r2 ∈ (M ++ [r1]).map rowKey) ↔ (rowKey r2 ∈ M.map rowKey) := by
    rw [List.map_append, List.mem_append]
    simp only [List.map_cons, List.map_nil, List.mem_singleton]
    constructor
    · rintro (h | h)
      · exact h
      · exact absurd h.symm hkey
    · exact Or.inl
  by_cases hk : rowKey r2 ∈ M.map rowKey
  · have e1 : mergeMaster M [r2] = (M, 0) := by
      refine mergeMaster_of_no_new M [r2] ?_
      intro r hr; rw [List.mem_singleton] at hr; exact hr ▸ hk
    have e2 : mergeMaster (M ++ [r1]) [r2] = (M ++ [r1], 0) := by
      refine mergeMaster_of_no_new (M ++ [r1]) [r2] ?_
      intro r hr; rw [List.mem_singleton] at hr; exact hr ▸ hmem.mpr hk
    rw [e1, e2]
  · have h1 : acceptedRows (M ++ [r1]) [r2] = [r2] := by
      simp only [acceptedRows, List.filter_eq_self]
      intro r hr; rw [List.mem_singleton] at hr; subst hr
      exact decide_eq_true (fun hc => hk (hmem.mp hc))
    have h2 : acceptedRows M [r2] = [r2] := by
      simp only [acceptedRows, List.filter_eq_self]
      intro r hr; rw [List.mem_singleton] at hr; subst hr
      exact decide_eq_true hk
    rw [mergeMaster_eq_ite, mergeMaster_eq_ite, h1, h2]
    simp

/-- C8 witness: the key-composition theorem at two concrete records
sharing `begin_date` with different `location_id`. -/
theorem merge_key_composition_witness :
    rowKey cxRow ≠ rowKey cxRowOther ∧
    (mergeMaster ([] ++ [cxRow]) [cxRowOther]).2 = (mergeMaster [] [cxRowOther]).2 :=
  merge_key_composition [] cxRow cxRowOther (by decide) (by decide)

/-! ### Claim theorems for the heterogeneous record extractor -/

/-- C4: the scenario JSON payload flattens to exactly one row with
`location_id` "4004", location ".Z.CONNECTICUT", load 2552.328, and
`begin_date` normalised to the UTC instant 2025-08-25T07:00:00Z
(the caller-supplied identifier "9999" is not used, since the record's
own `LocId` wins); and the record list is located by the fixed priority
chain — top-level list, then the `HourlyRtDemand` field, then the first
object field holding a non-empty list of dicts, else empty. -/
theorem energy_scenario (stamp : Int) :
    flattenEnergyJson stamp "9999" c4payload =
      .ok [{ scrape_time_utc := stamp,
             begin_date := some (utcInstant 2025 8 25 7 0 0),
             location := ".Z.CONNECTICUT", location_id := "4004",
             load := some (mkRat 2552328 1000) }] ∧
    parseTsUtc "2025-08-25T07:00:00Z" = some (utcInstant 2025 8 25 7 0 0) ∧
    (∀ l : List Json, findRecordList (Json.arr l) = l) ∧
    findRecordList c4payload = [c4record] ∧
    findRecordList (Json.obj [("Other", Json.arr [Json.obj []])]) = [Json.obj []] ∧
    findRecordList (Json.obj [("Other", Json.str "x")]) = [] ∧
    findRecordList Json.null = [] :=
  ⟨rfl, rfl, fun _ => rfl, rfl, rfl, rfl, rfl⟩

/-- C5: evaluation of the extractor at the failing input — a payload
that decodes fine as JSON but whose record has an unparsable
`BeginDate` makes `pd.to_datetime` (no `errors="coerce"`) raise, so
the extractor does not satisfy "never raises" as claimed; the
degradation paths the claim also describes do hold: empty and
whitespace-only inputs, and inputs decodable neither as JSON nor as
XML, all yield the empty narrow table without raising. -/
theorem energy_error_handling :
    flattenEnergyJson 0 "4004" c5badPayload =
      .error "ValueError: unknown datetime string format" ∧
    (∀ (jd : String → Option Json) (xd : String → Option (List XmlDemandNode))
        (stamp : Int) (locId : String),
      flattenEnergyText jd xd "" stamp locId = .ok [] ∧
      flattenEnergyText jd xd "   " stamp locId = .ok []) ∧
    (∀ (stamp : Int) (locId : String),
      flattenEnergyText (fun _ => none) (fun _ => none) "not json not xml"
        stamp locId = .ok []) :=
  ⟨rfl, fun _ _ _ _ => ⟨rfl, rfl⟩, fun _ _ => rfl⟩

/-- C4 witness: the scenario theorem at the concrete scrape stamp 0. -/
theorem energy_scenario_witness :
    flattenEnergyJson 0 "9999" c4payload =
      .ok [{ scrape_time_utc := 0,
             begin_date := some (utcInstant 2025 8 25 7 0 0),
             location := ".Z.CONNECTICUT", location_id := "4004",
             load := some (mkRat 2552328 1000) }] :=
  (energy_scenario 0).1

/-- C5 witness: the error-handling theorem's degradation parts at
concrete decoders and inputs. -/
theorem energy_error_handling_witness :
    flattenEnergyText (fun _ => none) (fun _ => none) "" 0 "4004" = .ok [] ∧
    flattenEnergyText (fun _ => none) (fun _ => none) "not json not xml" 0 "4004"
      = .ok [] :=
  ⟨(energy_error_handling.2.1 (fun _ => none) (fun _ => none) 0 "4004").1,
   energy_error_handling.2.2 0 "4004"⟩

/-- C10: a record whose load field is present but falsy (0, empty
string, ...) and whose fallback load fields are absent yields a missing
load — indistinguishable from an absent load; likewise a falsy
begin-date field with absent fallbacks yields a null `begin_date`. -/
theorem energy_falsy_fields_missing :
    (∀ (o : List (String × Json)) (stamp : Int) (locId : String) (v : Json)
        (row : EnergyRow),
      jLookup o "Load" = some v → truthy v = false →
      jLookup o "Value" = none → jLookup o "load" = none →
      rowOfRecord stamp locId (Json.obj o) = .ok row →
      row.load = none) ∧
    (∀ (o : List (String × Json)) (stamp : Int) (locId : String) (v : Json)
        (row : EnergyRow),
      jLookup o "BeginDate" = some v → truthy v = false →
      jLookup o "Begin" = none → jLookup o "beginDate" = none →
      rowOfRecord stamp locId (Json.obj o) = .ok row →
      row.begin_date = none) := by
  constructor
  · intro o stamp locId v row h1 h2 h3 h4 h5
    have hload : loadField o = Json.null := by
      simp only [loadField, jGetD, h1, h3, h4, Option.getD_some, Option.getD_none,
        pyOr, h2, if_false, Bool.false_eq_true]
      simp [truthy]
    simp only [rowOfRecord] at h5
    rcases hbe : beginExcept (beginField o) with e | bd
    · rw [hbe] at h5; cases h5
    · rw [hbe] at h5
      injection h5 with h5
      rw [← h5, hload]
      rfl
  · intro o stamp locId v row h1 h2 h3 h4 h5
    have hbegin : beginField o = Json.null := by
      simp only [beginField, jGetD, h1, h3, h4, Option.getD_some, Option.getD_none,
        pyOr, h2, if_false, Bool.false_eq_true]
      simp [truthy]
    simp only [rowOfRecord] at h5
    rw [hbegin] at h5
    have hbe : beginExcept Json.null = .ok none := rfl
    rw [hbe] at h5
    injection h5 with h5
    rw [← h5]

/-- C10 witness: the falsy-field theorem at the concrete records
having only `Load = 0` respectively only `BeginDate = ""`. -/
theorem energy_falsy_fields_missing_witness :
    falsyRow.load = none ∧ falsyRow.begin_date = none := by
  have h := energy_falsy_fields_missing
  exact ⟨h.1 [("Load", Json.num 0)] 0 "L" (Json.num 0) falsyRow rfl rfl rfl rfl rfl,
         h.2 [("BeginDate", Json.str "")] 0 "L" (Json.str "") falsyRow rfl rfl rfl rfl rfl⟩

/-! ### Lemmas about the master axis union -/

lemma mem_qInsert {t x : Int} {a : List Int} : t ∈ qInsert x a ↔ t = x ∨ t ∈ a := by
  by_cases h : x ∈ a
  · rw [qInsert, if_pos h]
    constructor
    · exact Or.inr
    · rintro (rfl | ht)
      exacts [h, ht]
  · rw [qInsert, if_neg h]
    simp [List.mem_append, or_comm]

lemma nodup_qInsert {x : Int} {a : List Int} (h : a.Nodup) : (qInsert x a).Nodup := by
  by_cases hx : x ∈ a
  · rwa [qInsert, if_pos hx]
  · rw [qInsert, if_neg hx]
    refine h.append (List.nodup_singleton x) ?_
    intro t ht htx
    rw [List.mem_singleton] at htx
    exact hx (htx ▸ ht)

lemma mem_idxUnion {t : Int} (l : List Int) :
    ∀ acc, t ∈ idxUnion acc l ↔ t ∈ acc ∨ t ∈ l := by
  induction l with
  | nil => intro acc; simp [idxUnion]
  | cons x xs ih =>
      intro acc
      rw [idxUnion, List.foldl_cons]
      have := ih (qInsert x acc)
      rw [idxUnion] at this
      rw [this, mem_qInsert, List.mem_cons]
      tauto

lemma nodup_idxUnion (l : List Int) :
    ∀ acc : List Int, acc.Nodup → (idxUnion acc l).Nodup := by
  induction l with
  | nil => intro acc h; simpa [idxUnion] using h
  | cons x xs ih =>
      intro acc h
      rw [idxUnion, List.foldl_cons]
      have := ih (qInsert x acc) (nodup_qInsert h)
      rwa [idxUnion] at this

lemma mem_foldl_idxUnion {t : Int} (ls : List (List Int)) :
    ∀ acc, t ∈ ls.foldl idxUnion acc ↔ t ∈ acc ∨ ∃ l ∈ ls, t ∈ l := by
  induction ls with
  | nil => intro acc; simp
  | cons l ls ih =>
      intro acc
      rw [List.foldl_cons, ih, mem_idxUnion]
      constructor
      · rintro ((h | h) | ⟨l2, hl2, ht⟩)
        · exact Or.inl h
        · exact Or.inr ⟨l, List.mem_cons_self l ls, h⟩
        · exact Or.inr ⟨l2, List.mem_cons_of_mem l hl2, ht⟩
      · rintro (h | ⟨l2, hl2, ht⟩)
        · exact Or.inl (Or.inl h)
        · rcases List.mem_cons.mp hl2 with rfl | hl2
          · exact Or.inl (Or.inr ht)
          · exact Or.inr ⟨l2, hl2, ht⟩

lemma nodup_foldl_idxUnion (ls : List (List Int)) :
    ∀ acc : List Int, acc.Nodup → (ls.foldl idxUnion acc).Nodup := by
  induction ls with
  | nil => intro acc h; simpa using h
  | cons l ls ih =>
      intro acc h
      rw [List.foldl_cons]
      exact ih _ (nodup_idxUnion l acc h)

lemma masterAxis_nodup (doc : Dwml) (tmap : List (String × List Int)) :
    (masterAxis doc tmap).Nodup :=
  ((List.perm_insertionSort _ _).nodup_iff).mpr
    (nodup_foldl_idxUnion _ [] List.nodup_nil)

lemma masterAxis_sorted (doc : Dwml) (tmap : List (String × List Int)) :
    List.Sorted (· ≤ ·) (masterAxis doc tmap) :=
  List.sorted_insertionSort _ _

lemma mem_masterAxis {t : Int} (doc : Dwml) (tmap : List (String × List Int)) :
    t ∈ masterAxis doc tmap ↔ ∃ l ∈ allIndexLists doc tmap, t ∈ l := by
  rw [masterAxis, (List.perm_insertionSort _ _).mem_iff, mem_foldl_idxUnion]
  simp

/-! ### Destructuring a successful flatten -/

lemma flatten_dwml_ok {doc : Dwml} {stamp : Int} {lat lon : ℚ} {wf : WideFrame}
    (h : flatten_dwml doc stamp lat lon = .ok wf) :
    ∃ tmap, timeMapAux doc.timeLayouts = .ok tmap ∧
      (allIndexLists doc tmap).isEmpty = false ∧
      wf.index = masterAxis doc tmap ∧
      (∃ cols, reindexAll (extractedSeries doc tmap) (masterAxis doc tmap) = .ok cols ∧
        wf.cols = (assignAll (joinCols cols)).map (fun p => (renameName p.1, p.2))) ∧
      (∃ fcols, reindexAll (flagList (extractedFlags doc tmap)) (masterAxis doc tmap)
          = .ok fcols ∧ wf.flagCols = fcols) := by
  unfold flatten_dwml at h
  split at h
  · cases h
  next tmap hm =>
    split at h
    · cases h
    next hne =>
      split at h
      · cases h
      next cols hc =>
        split at h
        · cases h
        next fcols hf =>
          injection h with h
          subst h
          refine ⟨tmap, hm, ?_, rfl, ⟨cols, hc, rfl⟩, ⟨fcols, hf, rfl⟩⟩
          simpa using hne

/-- C3: whenever flattening succeeds, the wide table has exactly one
row per distinct timestamp in the union of all extracted series' and
flag series' indices — membership in the `forecast_time_utc` axis is
exactly membership in some input index, the axis has no duplicates,
and it is sorted ascending. -/
theorem dwml_union_completeness (doc : Dwml) (tm : List (String × List Int))
    (stamp : Int) (lat lon : ℚ) (wf : WideFrame)
    (htm : timeMapAux doc.timeLayouts = .ok tm)
    (hok : flatten_dwml doc stamp lat lon = .ok wf) :
    wf.index.Nodup ∧ List.Sorted (· ≤ ·) wf.index ∧
      (∀ t : Int, t ∈ wf.index ↔ ∃ l ∈ allIndexLists doc tm, t ∈ l) := by
  obtain ⟨tmap, hm, _, hidx, _, _⟩ := flatten_dwml_ok hok
  have htmeq : tm = tmap := by
    have := htm.symm.trans hm
    injection this
  subst htmeq
  rw [hidx]
  exact ⟨masterAxis_nodup doc tm, masterAxis_sorted doc tm,
    fun t => mem_masterAxis doc tm⟩

/-- C3 witness: the union-completeness theorem at a concrete document
with one two-point series. -/
theorem dwml_union_completeness_witness :
    c3frame.index.Nodup ∧ List.Sorted (· ≤ ·) c3frame.index ∧
      (∀ t : Int, t ∈ c3frame.index ↔ ∃ l ∈ allIndexLists c3doc c3tmap, t ∈ l) :=
  dwml_union_completeness c3doc c3tmap 0 0 0 c3frame rfl rfl

/-! ### Lemmas about reindexing and column assignment -/

lemma reindexSafe_ok {α : Type} {s : List (Int × α)} {master : List Int}
    {out : List (Option α)} (h : reindexSafe s master = .ok out) :
    out = master.map (fun t => (s.find? (fun p => decide (p.1 = t))).map Prod.snd) := by
  unfold reindexSafe at h
  split at h
  · injection h with h
    exact h.symm
  · cases h

lemma reindexAll_lengths {α : Type} :
    ∀ (ss : List (String × List (Int × α))) (master : List Int)
      (cols : List (String × List (Option α))),
      reindexAll ss master = .ok cols → ∀ c ∈ cols, c.2.length = master.length := by
  intro ss
  induction ss with
  | nil =>
      intro master cols h c hc
      simp only [reindexAll] at h
      injection h with h
      subst h
      cases hc
  | cons p rest ih =>
      obtain ⟨n, s⟩ := p
      intro master cols h c hc
      simp only [reindexAll] at h
      split at h
      · cases h
      next col hcol =>
        split at h
        · cases h
        next cols2 hcols2 =>
          injection h with h
          subst h
          rcases List.mem_cons.mp hc with rfl | hc2
          · rw [reindexSafe_ok hcol]
            exact List.length_map _ _
          · exact ih master cols2 hcols2 c hc2

lemma assignCol_values (P : List (Option ℚ) → Prop) {acc : List (String × List (Option ℚ))}
    {nv : String × List (Option ℚ)} (ha : ∀ c ∈ acc, P c.2) (hn : P nv.2) :
    ∀ c ∈ assignCol acc nv, P c.2 := by
  intro c hc
  unfold assignCol at hc
  split at hc
  · obtain ⟨p, hp, hpc⟩ := List.mem_map.mp hc
    by_cases hb : (p.1 == nv.1) = true
    · rw [if_pos hb] at hpc
      rw [← hpc]
      exact hn
    · rw [if_neg hb] at hpc
      rw [← hpc]
      exact ha p hp
  · rcases List.mem_append.mp hc with h | h
    · exact ha c h
    · rw [List.mem_singleton] at h
      rw [h]
      exact hn

lemma foldl_assign_values (P : List (Option ℚ) → Prop) :
    ∀ (cols acc : List (String × List (Option ℚ))),
      (∀ c ∈ acc, P c.2) → (∀ c ∈ cols, P c.2) →
      ∀ c ∈ cols.foldl assignCol acc, P c.2 := by
  intro cols
  induction cols with
  | nil => intro acc ha _ c hc; exact ha c hc
  | cons nv rest ih =>
      intro acc ha hcols c hc
      rw [List.foldl_cons] at hc
      refine ih (assignCol acc nv)
        (assignCol_values P ha (hcols nv (List.mem_cons_self _ _))) ?_ c hc
      intro d hd
      exact hcols d (List.mem_cons_of_mem _ hd)

lemma assignAll_values (P : List (Option ℚ) → Prop)
    (cols : List (String × List (Option ℚ))) (h : ∀ c ∈ cols, P c.2) :
    ∀ c ∈ assignAll cols, P c.2 :=
  foldl_assign_values P cols [] (by intro c hc; cases hc) h

/-- C6: the value coercion sends empty strings, the literal "NA",
absent texts and non-numeric strings to an explicit missing value,
never to zero; reindexing a series onto the master axis keeps one cell
per axis position (no dropped rows) and yields an explicit missing
cell wherever the series has no entry; and every numeric and flag
column of a successfully flattened frame has exactly one cell per
axis row. -/
theorem dwml_missing_value_fidelity :
    (coerceVal none = none ∧ coerceVal (some "") = none ∧
      coerceVal (some "NA") = none) ∧
    (∀ s : String, parseDecimal s = none → coerceVal (some s) = none) ∧
    (∀ (s : List (Int × ℚ)) (master : List Int) (out : List (Option ℚ)),
      reindexSafe s master = .ok out →
      out.length = master.length ∧
      ∀ (i : Nat) (hi : i < master.length) (ho : i < out.length),
        master.get ⟨i, hi⟩ ∉ s.map Prod.fst → out.get ⟨i, ho⟩ = none) ∧
    (∀ (doc : Dwml) (stamp : Int) (lat lon : ℚ) (wf : WideFrame),
      flatten_dwml doc stamp lat lon = .ok wf →
      (∀ c ∈ wf.cols, c.2.length = wf.index.length) ∧
      (∀ c ∈ wf.flagCols, c.2.length = wf.index.length)) := by
  refine ⟨⟨rfl, rfl, rfl⟩, ?_, ?_, ?_⟩
  · intro s hs
    simp only [coerceVal]
    split
    · rfl
    · exact hs
  · intro s master out h
    have hout := reindexSafe_ok h
    subst hout
    refine ⟨List.length_map _ _, ?_⟩
    intro i hi ho hnot
    rw [List.get_map, Option.map_eq_none', List.find?_eq_none]
    intro p hp hpt
    rw [decide_eq_true_iff] at hpt
    exact hnot (hpt ▸ List.mem_map_of_mem Prod.fst hp)
  · intro doc stamp lat lon wf hok
    obtain ⟨tmap, hm, hne, hidx, ⟨cols, hc, hcols⟩, ⟨fcols, hf, hfcols⟩⟩ :=
      flatten_dwml_ok hok
    have hlen : ∀ c ∈ cols, c.2.length = (masterAxis doc tmap).length :=
      reindexAll_lengths _ _ _ hc
    constructor
    · rw [hcols, hidx]
      intro c hc2
      obtain ⟨p, hp, hpc⟩ := List.mem_map.mp hc2
      rw [← hpc]
      have hjoin : ∀ d ∈ joinCols cols, d.2.length = (masterAxis doc tmap).length := by
        intro d hd
        obtain ⟨q, hq, hqd⟩ := List.mem_map.mp hd
        rw [← hqd]
        simpa using hlen q hq
      exact assignAll_values (fun v => v.length = (masterAxis doc tmap).length)
        (joinCols cols) hjoin p hp
    · rw [hfcols, hidx]
      exact reindexAll_lengths _ _ _ hf

/-- C6 witness: coercion of a non-numeric string, reindexing of a
one-point series onto a two-point axis (missing cell, no dropped row),
and the column/axis alignment of the concrete flattened frame. -/
theorem dwml_missing_value_fidelity_witness :
    coerceVal (some "abc") = none ∧
    ([some (1 : ℚ), none] : List (Option ℚ)).length = ([0, 5] : List Int).length ∧
    ([some (1 : ℚ), none] : List (Option ℚ)).get ⟨1, by decide⟩ = none ∧
    ("temp_F", [some (mkRat 1 1), some (mkRat 2 1)]).2.length = c3frame.index.length := by
  have h := dwml_missing_value_fidelity
  have hre := h.2.2.1 [((0 : Int), (1 : ℚ))] [0, 5] [some 1, none] rfl
  refine ⟨h.2.1 "abc" rfl, hre.1, hre.2 1 (by decide) (by decide) (by decide), ?_⟩
  exact (h.2.2.2 c3doc 0 0 0 c3frame rfl).1 _ (List.mem_singleton.mpr rfl)

/-- C7: a parameter node that passes the skip guards (not an excluded
tag, has value children, has a truthy and matched time-layout)
produces exactly `min(len(values), len(times))` aligned
(timestamp, value) pairs — zero-length alignments are skipped rather
than erroneous, and extraction is total (never raises). -/
theorem dwml_truncation (tmap : List (String × List Int)) (node : DwmlNode)
    (k : String) (times : List Int)
    (h1 : node.tag ≠ "weather") (h2 : node.tag ≠ "conditions-icon")
    (h4 : node.timeLayout = some k) (h5 : k ≠ "")
    (h6 : tmapLookup tmap k = some times) :
    alignedLen (extractNode tmap node) = min node.values.length times.length := by
  have hor : ¬(node.tag = "weather" ∨ node.tag = "conditions-icon") := by
    rintro (h | h)
    exacts [h1 h, h2 h]
  by_cases hv : node.values.isEmpty = true
  · rw [List.isEmpty_iff] at hv
    simp [extractNode, if_neg hor, hv, alignedLen]
  · simp only [extractNode, if_neg hor, if_neg hv, h4, if_neg h5, h6]
    by_cases hn : min node.values.length times.length = 0
    · rw [if_pos hn, hn]
      rfl
    · rw [if_neg hn]
      unfold alignedLen
      simp only [List.length_zip, List.length_take, List.length_map]
      omega

/-- C7 witness: a node with 5 declared values against a 3-timestamp
layout yields exactly 3 aligned pairs. -/
theorem dwml_truncation_witness : alignedLen (extractNode c7tmap c7node) = 3 := by
  have h := dwml_truncation c7tmap c7node "k5" [0, 1000000000, 2000000000]
    (by decide) (by decide) rfl (by decide) rfl
  exact h.trans (by decide)

/-! ### Lemmas towards the fatality characterisation (C9) -/

lemma tmapLookup_mem {tm : List (String × List Int)} {k : String} {ts : List Int}
    (h : tmapLookup tm k = some ts) : ∃ k2, (k2, ts) ∈ tm := by
  unfold tmapLookup at h
  cases hf : tm.reverse.find? (fun p => p.1 == k) with
  | none => rw [hf] at h; cases h
  | some p =>
      obtain ⟨k2, ts2⟩ := p
      rw [hf] at h
      simp only [Option.map_some'] at h
      injection h with h
      subst h
      have hmem := List.mem_of_find?_eq_some hf
      rw [List.mem_reverse] at hmem
      exact ⟨k2, hmem⟩

lemma extractNode_index {tmap : List (String × List Int)} {node : DwmlNode}
    {nm : String} {ps : List (Int × Option ℚ)}
    (h : extractNode tmap node = some (nm, ps)) :
    ∃ k times, tmapLookup tmap k = some times ∧
      ps.map Prod.fst = times.take (min node.values.length times.length) := by
  unfold extractNode at h
  split at h
  · cases h
  · split at h
    · cases h
    · split at h
      · cases h
      next k hk =>
        split at h
        · cases h
        next hke =>
          split at h
          · cases h
          next times ht =>
            split at h
            · cases h
            next hn =>
              injection h with h
              rw [Prod.mk.injEq] at h
              obtain ⟨h1, h2⟩ := h
              refine ⟨k, times, ht, ?_⟩
              rw [← h2, List.map_fst_zip]
              simp only [List.length_take, List.length_map]
              omega

lemma mem_foldl_filterMap {r : String × List (Int × Option ℚ)}
    {f : DwmlNode → Option (String × List (Int × Option ℚ))}
    (groups : List (List DwmlNode)) :
    ∀ acc, r ∈ groups.foldl (fun acc g => acc ++ g.filterMap f) acc ↔
      r ∈ acc ∨ ∃ g ∈ groups, r ∈ g.filterMap f := by
  induction groups with
  | nil => intro acc; simp
  | cons g gs ih =>
      intro acc
      rw [List.foldl_cons, ih, List.mem_append]
      constructor
      · rintro ((h | h) | ⟨g2, hg2, hr⟩)
        · exact Or.inl h
        · exact Or.inr ⟨g, List.mem_cons_self _ _, h⟩
        · exact Or.inr ⟨g2, List.mem_cons_of_mem _ hg2, hr⟩
      · rintro (h | ⟨g2, hg2, hr⟩)
        · exact Or.inl (Or.inl h)
        · rcases List.mem_cons.mp hg2 with rfl | h2
          · exact Or.inl (Or.inr hr)
          · exact Or.inr ⟨g2, h2, hr⟩

lemma mem_extractedSeries {doc : Dwml} {tmap : List (String × List Int)}
    {r : String × List (Int × Option ℚ)} (h : r ∈ extractedSeries doc tmap) :
    ∃ node, extractNode tmap node = some r := by
  unfold extractedSeries at h
  rcases (mem_foldl_filterMap doc.parameters []).mp h with h2 | ⟨g, _, hr⟩
  · cases h2
  · obtain ⟨node, _, heq⟩ := List.mem_filterMap.mp hr
    exact ⟨node, heq⟩

lemma extractedSeries_index_nodup {doc : Dwml} {tm : List (String × List Int)}
    (hnd : ∀ p ∈ tm, (p.2 : List Int).Nodup) :
    ∀ c ∈ extractedSeries doc tm, ((c.2).map Prod.fst).Nodup := by
  intro c hc
  obtain ⟨node, hnode⟩ := mem_extractedSeries hc
  obtain ⟨nm, ps⟩ := c
  obtain ⟨k, times, ht, hidx⟩ := extractNode_index hnode
  rw [hidx]
  obtain ⟨k2, hmem⟩ := tmapLookup_mem ht
  exact List.Nodup.sublist (List.take_sublist _ _) (hnd (k2, times) hmem)

lemma weatherTimes_nodup {tm : List (String × List Int)}
    (hnd : ∀ p ∈ tm, (p.2 : List Int).Nodup) (node : WeatherNode) :
    (weatherTimes tm node).Nodup := by
  unfold weatherTimes
  split
  next k hk =>
    cases hl : tmapLookup tm k with
    | none => simp
    | some ts =>
        rw [Option.getD_some]
        obtain ⟨k2, hm⟩ := tmapLookup_mem hl
        exact hnd (k2, ts) hm
  next hk => exact List.nodup_nil

lemma flagList_index_nodup {doc : Dwml} {tm : List (String × List Int)}
    (hnd : ∀ p ∈ tm, (p.2 : List Int).Nodup) :
    ∀ c ∈ flagList (extractedFlags doc tm), ((c.2).map Prod.fst).Nodup := by
  intro c hc
  have hzip : ∀ sel : Bool × Bool × Bool → Bool, ∀ node : WeatherNode,
      (((flagIdx tm node).zip ((flagVals tm node).map sel)).map Prod.fst).Nodup := by
    intro sel node
    rw [List.map_fst_zip]
    · exact List.Nodup.sublist (List.take_sublist _ _) (weatherTimes_nodup hnd node)
    · simp only [flagIdx, flagVals, List.length_take, List.length_map]
      omega
  unfold extractedFlags at hc
  split at hc
  · simp [flagList] at hc
  next node hnode =>
    split at hc
    · simp [flagList] at hc
    · have hc2 := (List.mem_filter.mp hc).1
      rcases List.mem_cons.mp hc2 with rfl | hc3
      · exact hzip _ node
      · rcases List.mem_cons.mp hc3 with rfl | hc4
        · exact hzip _ node
        · rcases List.mem_cons.mp hc4 with rfl | hc5
          · exact hzip _ node
          · cases hc5

lemma reindexAll_total {α : Type} :
    ∀ (ss : List (String × List (Int × α))) (master : List Int),
      (∀ c ∈ ss, ((c.2).map Prod.fst).Nodup) →
      ∃ cols, reindexAll ss master = .ok cols := by
  intro ss
  induction ss with
  | nil => intro master _; exact ⟨[], rfl⟩
  | cons p rest ih =>
      obtain ⟨n, s⟩ := p
      intro master hnd
      have hs : (s.map Prod.fst).Nodup := hnd (n, s) (List.mem_cons_self _ _)
      obtain ⟨cols, hcols⟩ := ih master (fun c hc => hnd c (List.mem_cons_of_mem _ hc))
      refine ⟨(n, master.map
        (fun t => (s.find? (fun p => decide (p.1 = t))).map Prod.snd)) :: cols, ?_⟩
      simp only [reindexAll, reindexSafe, if_pos hs, hcols]

/-- C9 (amended): provided the document's time-layouts themselves parse
(`_time_map` succeeds — in particular no layout lacks its `layout-key`,
which raises an IndexError regardless of the union) and each layout's
timestamps are duplicate-free, flattening succeeds if and only if the
union of all series' and flag series' indices is nonempty; with zero
usable timestamps it raises, and malformed individual values degrade to
missing without raising. -/
theorem dwml_fatal_iff (doc : Dwml) (tm : List (String × List Int))
    (stamp : Int) (lat lon : ℚ)
    (htm : timeMapAux doc.timeLayouts = .ok tm)
    (hnd : ∀ p ∈ tm, (p.2 : List Int).Nodup) :
    (∃ wf, flatten_dwml doc stamp lat lon = .ok wf) ↔
      allIndexLists doc tm ≠ [] := by
  constructor
  · rintro ⟨wf, hok⟩
    obtain ⟨tmap, hm, hne, _, _, _⟩ := flatten_dwml_ok hok
    have heq : tm = tmap := by
      have := htm.symm.trans hm
      injection this
    subst heq
    intro hnil
    rw [hnil] at hne
    cases hne
  · intro hne
    obtain ⟨cols, hc⟩ := reindexAll_total (extractedSeries doc tm) (masterAxis doc tm)
      (extractedSeries_index_nodup hnd)
    obtain ⟨fcols, hf⟩ := reindexAll_total (flagList (extractedFlags doc tm))
      (masterAxis doc tm) (flagList_index_nodup hnd)
    have hempty : (allIndexLists doc tm).isEmpty = false := by
      cases hl : allIndexLists doc tm with
      | nil => exact absurd hl hne
      | cons a l => rfl
    refine ⟨{ scrape_time_utc := stamp, location_lat := lat, location_lon := lon,
              index := masterAxis doc tm,
              cols := (assignAll (joinCols cols)).map (fun p => (renameName p.1, p.2)),
              flagCols := fcols }, ?_⟩
    simp only [flatten_dwml, htm, hempty, Bool.false_eq_true, if_false, hc, hf]

/-- C9 counterexample: a document with one perfectly good series (its
index is nonempty, as witnessed by the tolerant reading of the layouts)
and one additional time-layout lacking its `layout-key` child makes
flattening raise an IndexError — so "raises if and only if the union of
series and flag indices is empty" fails in the only-if direction. -/
theorem dwml_fatal_counterexample :
    flatten_dwml c9doc 0 0 0 = .error "IndexError: list index out of range" ∧
    claimIndexLists c9doc ≠ [] :=
  ⟨rfl, by decide⟩

/-- C9 witness: the amended characterisation at the concrete one-series
document, backward direction — the union is nonempty, so flattening
completes. -/
theorem dwml_fatal_iff_witness : ∃ wf, flatten_dwml c3doc 0 0 0 = .ok wf :=
  (dwml_fatal_iff c3doc c3tmap 0 0 0 rfl (by decide)).mpr (by decide)

end Scraper
